import Mathlib

/-!
Shallow embedding of macaron's `render.go` (package macaron): the template-set
compiler, the registry, the layout/yield composition protocol, and the
JSON/XML/raw data rendering paths, together with theorems checking the
natural-language specification against the code.

Conventions of the embedding:
- Go maps guarded by the package lock (`tplSets`, `tplSetOpts`) are modelled as
  association lists; a map write is a prepend and `lookupA` returns the most
  recent binding, which matches last-writer-wins map semantics.
- The output sink (`http.ResponseWriter`) is modelled as the ordered trace of
  the operations performed on it: header sets, status-line writes, byte writes.
- Template bodies are modelled post-parse, as small ASTs: literal text, a
  reference to the render data, a call of the `yield` helper, a call of the
  `current` helper.  Parsing itself is Go stdlib and out of scope; delimiters
  and user function tables shape only the parsed bodies.
- Template execution carries a fuel parameter because a bound `yield` may
  re-enter template execution.
- Machine-level concerns (the buffer pool, timers, the lock itself) are elided;
  the sequential semantics of the locked sections is kept.
-/

/-! ## Constants from render.go -/

def ContentType : String := "Content-Type"

def ContentLength : String := "Content-Length"

def ContentBinary : String := "application/octet-stream"

def ContentJSON : String := "application/json"

def ContentHTML : String := "text/html"

def ContentXHTML : String := "application/xhtml+xml"

def ContentXML : String := "text/xml"

def defaultCharset : String := "UTF-8"

def _DEFAULT_TPL_SET_NAME : String := "DEFAULT"

/-! ## Association lists standing in for the locked Go maps -/

def lookupA {α : Type} (l : List (String × α)) (k : String) : Option α :=
  (l.find? (fun p => p.fst == k)).map (fun p => p.snd)

/-- A Go map write: prepend; `lookupA` sees the newest binding first. -/
def setA {α : Type} (l : List (String × α)) (k : String) (v : α) :
    List (String × α) :=
  (k, v) :: l

/-! ## Template model -/

/-- A node of a parsed template body. -/
inductive Node where
  | text (s : String)
  | dataRef
  | yieldCall
  | currentCall
deriving DecidableEq, Repr

/-- The binding state of the `yield` helper in a tree's shared function table.
`unbound` is the default from `helperFuncs`; `bound` is what
`TplRender.addYield` installs: the content template's name and the render
call's data. -/
inductive FYield where
  | unbound
  | bound (tplName : String) (data : String)
deriving DecidableEq, Repr

/-- The binding state of the `current` helper in a tree's shared function
table. -/
inductive FCurrent where
  | unbound
  | bound (tplName : String)
deriving DecidableEq, Repr

/-- A compiled template tree (`html/template.Template`): named nodes sharing
one function table, here reduced to the two built-in helper bindings. -/
structure TplSet where
  tpls : List (String × List Node)
  yieldF : FYield
  currentF : FCurrent
deriving DecidableEq, Repr

/-- Escape one character the way html/template escapes text content. -/
def htmlEscapeChar (c : Char) : String :=
  if c == '&' then "&amp;"
  else if c == '<' then "&lt;"
  else if c == '>' then "&gt;"
  else if c == '"' then "&#34;"
  else if c == '\'' then "&#39;"
  else String.mk [c]

/-- Escape a character list left to right. -/
def htmlEscapeList : List Char → String
  | [] => ""
  | c :: cs => htmlEscapeChar c ++ htmlEscapeList cs

/-- Context auto-escaping of html/template applied to a plain string value. -/
def htmlEscape (s : String) : String :=
  htmlEscapeList s.data

/-- Render one node.  `execY` performs a bound yield's nested template
execution (one fuel level down in `execTpl`).  A string-valued helper result
or data value is auto-escaped; the output of a bound `yield` is
`template.HTML` in the source and is therefore spliced in unescaped. -/
def execNode (t : TplSet)
    (execY : String → String → Except String String) (n : Node)
    (data : String) : Except String String :=
  match n with
  | Node.text s => Except.ok s
  | Node.dataRef => Except.ok (htmlEscape data)
  | Node.yieldCall =>
    match t.yieldF with
    | FYield.unbound => Except.error "yield called with no layout defined"
    | FYield.bound tplName d => execY tplName d
  | Node.currentCall =>
    match t.currentF with
    | FCurrent.unbound => Except.ok ""
    | FCurrent.bound tplName => Except.ok (htmlEscape tplName)

/-- Run a template body left to right, concatenating rendered output and
stopping at the first error. -/
def execBody (t : TplSet)
    (execY : String → String → Except String String) :
    List Node → String → Except String String
  | [], _ => Except.ok ""
  | n :: ns, data =>
    match execNode t execY n data with
    | Except.error e => Except.error e
    | Except.ok s1 =>
      match execBody t execY ns data with
      | Except.error e => Except.error e
      | Except.ok s2 => Except.ok (s1 ++ s2)

/-- `t.ExecuteTemplate(buf, name, data)`: look the node up by name and run its
body.  A missing name is the html/template "is undefined" error.  Fuel bounds
the re-entrant executions a bound `yield` can perform. -/
def execTpl : Nat → TplSet → String → String → Except String String
  | 0, _, _, _ =>
    Except.error "macaron model: template recursion fuel exhausted"
  | Nat.succ fuel, t, name, data =>
    match lookupA t.tpls name with
    | none => Except.error ("html/template: \"" ++ name ++ "\" is undefined")
    | some body => execBody t (fun n2 d2 => execTpl fuel t n2 d2) body data

/-! ## Configuration records -/

/-- `Delims` from render.go: left/right delimiters for template parsing. -/
structure Delims where
  Left : String := ""
  Right : String := ""
deriving DecidableEq, Repr

/-- A user helper-function table (`template.FuncMap`), reduced to the names it
binds: its contents only shape parsed bodies, which the model takes post-parse. -/
def FuncTable : Type := List String

/-- `RenderOptions` from render.go, with Go zero values as defaults. -/
structure RenderOptions where
  Name : String := ""
  Directory : String := ""
  Layout : String := ""
  Extensions : List String := []
  Funcs : List FuncTable := []
  Delims : Delims := {}
  Charset : String := ""
  IndentJSON : Bool := false
  IndentXML : Bool := false
  PrefixJSON : String := ""
  PrefixXML : String := ""
  HTMLContentType : String := ""

/-- `HTMLOptions` from render.go: the per-call layout override. -/
structure HTMLOptions where
  Layout : String
deriving DecidableEq, Repr

/-! ## Registry (tplSets / tplSetOpts) -/

/-- The process-wide registries `tplSets` and `tplSetOpts`, threaded
explicitly. -/
structure Registry where
  trees : List (String × TplSet)
  opts : List (String × RenderOptions)

/-- `prepareOptions`: default the absent fields and register the configuration
under its (possibly defaulted) name. -/
def prepareOptions (options : List RenderOptions)
    (optsReg : List (String × RenderOptions)) :
    RenderOptions × List (String × RenderOptions) :=
  let opt : RenderOptions := match options with
    | o :: _ => o
    | [] => {}
  let opt := if opt.Name.length == 0 then
    { opt with Name := _DEFAULT_TPL_SET_NAME } else opt
  let opt := if opt.Directory.length == 0 then
    { opt with Directory := "templates" } else opt
  let opt := if opt.Extensions.length == 0 then
    { opt with Extensions := [".tmpl", ".html"] } else opt
  let opt := if opt.HTMLContentType.length == 0 then
    { opt with HTMLContentType := ContentHTML } else opt
  (opt, setA optsReg opt.Name opt)

/-- `prepareCharset`: the content-type charset suffix. -/
def prepareCharset (charset : String) : String :=
  if charset.length != 0 then "; charset=" ++ charset
  else "; charset=" ++ defaultCharset

/-! ## Template set compilation -/

/-- `strings.Split(s, ".")` on a character list: the dot-separated groups,
empty groups preserved. -/
def splitOnDot : List Char → List (List Char)
  | [] => [[]]
  | c :: cs =>
    if c == '.' then [] :: splitOnDot cs
    else
      match splitOnDot cs with
      | [] => [[c]]
      | g :: gs => (c :: g) :: gs

/-- `strings.Index(s, ".") != -1` on a character list. -/
def containsDot : List Char → Bool
  | [] => false
  | c :: cs => c == '.' || containsDot cs

/-- `getExt`: everything from the first dot of the string onward (via
`strings.Split`/`strings.Join`), or "" when there is no dot. -/
def getExt (s : String) : String :=
  if containsDot s.data then
    "." ++ String.intercalate "."
      (((splitOnDot s.data).map (fun g => String.mk g)).drop 1)
  else ""

/-- A file the directory walk visits: its path components relative to the
configured directory, and its (post-parse) contents.  Directories yield no
nodes (no dot, or a non-matching suffix) and are elided. -/
structure FsEntry where
  rel : List String
  content : List Node
deriving DecidableEq, Repr

/-- The relative path handed out by `filepath.Rel`, joined with the host's
separator. -/
def relPath (sep : Char) (e : FsEntry) : String :=
  String.intercalate (String.singleton sep) e.rel

/-- Replace the host separator by a forward slash, character by character. -/
def toSlashList (sep : Char) : List Char → List Char
  | [] => []
  | c :: cs => (if c == sep then '/' else c) :: toSlashList sep cs

/-- `filepath.ToSlash`: replace the host separator by a forward slash. -/
def toSlash (sep : Char) (s : String) : String :=
  String.mk (toSlashList sep s.data)

/-- The walk body's match test: `ext == extension` for some configured
extension. -/
def extMatched (exts : List String) (sep : Char) (e : FsEntry) : Bool :=
  exts.contains (getExt (relPath sep e))

/-- The walk body's node name: the relative path with the matched extension
sliced off (`r[0 : len(r)-len(ext)]`), then `filepath.ToSlash`. -/
def nodeName (sep : Char) (e : FsEntry) : String :=
  let r := relPath sep e
  let ext := getExt r
  toSlash sep (r.take (r.length - ext.length))

/-- One iteration of the `filepath.Walk` callback over the node accumulator. -/
def compileStep (exts : List String) (sep : Char)
    (acc : List (String × List Node)) (e : FsEntry) :
    List (String × List Node) :=
  if extMatched exts sep e then (nodeName sep e, e.content) :: acc else acc

/-- `compile`, tree part: a fresh tree seeded with the placeholder template
`"Macaron"` (named after the directory), then a node per matching file, default
helper bindings from `helperFuncs`. -/
def compileTpl (opt : RenderOptions) (fs : List FsEntry) (sep : Char) : TplSet :=
  { tpls := fs.foldl (compileStep opt.Extensions sep)
      [(opt.Directory, [Node.text "Macaron"])]
    yieldF := FYield.unbound
    currentF := FCurrent.unbound }

/-- `compile`, registry part: install the new tree under the configuration's
name. -/
def compile (opt : RenderOptions) (fs : List FsEntry) (sep : Char)
    (reg : Registry) : Registry :=
  { reg with trees := setA reg.trees opt.Name (compileTpl opt fs sep) }

/-! ## The output sink -/

/-- One operation performed on the `http.ResponseWriter`. -/
inductive SinkEv where
  | setHeader (k v : String)
  | writeHeader (code : Nat)
  | write (b : String)
deriving DecidableEq, Repr

/-- The sink is the ordered trace of operations performed on it. -/
abbrev Sink := List SinkEv

/-- `r.Header().Set(k, v)`. -/
def headerSet (s : Sink) (k v : String) : Sink :=
  s ++ [SinkEv.setHeader k v]

/-- `r.WriteHeader(code)`. -/
def writeStatus (s : Sink) (code : Nat) : Sink :=
  s ++ [SinkEv.writeHeader code]

/-- `r.Write(b)`. -/
def writeBytes (s : Sink) (b : String) : Sink :=
  s ++ [SinkEv.write b]

/-- `r.Header().Get(k)`: the most recent value set for the key, `""` when the
key was never set. -/
def headerGet (s : Sink) (k : String) : String :=
  s.foldl (fun acc e =>
    match e with
    | SinkEv.setHeader k2 v => if k2 == k then v else acc
    | _ => acc) ""

/-- All payload bytes written to the sink, in order. -/
def bodyOf (s : Sink) : String :=
  s.foldl (fun acc e =>
    match e with
    | SinkEv.write b => acc ++ b
    | _ => acc) ""

/-- Model of Go's stdlib `http.Error` (net/http): set Content-Type to
text/plain, set X-Content-Type-Options to nosniff, write the status code, and
`Fprintln` the message, which appends a newline. -/
def httpError (s : Sink) (msg : String) (code : Nat) : Sink :=
  writeBytes
    (writeStatus
      (headerSet (headerSet s ContentType "text/plain; charset=utf-8")
        "X-Content-Type-Options" "nosniff")
      code)
    (msg ++ "\n")

/-! ## Environment mode -/

/-- Modelled from the spec: the process mode signal (`Env`, `DEV`, `PROD` live
in macaron.go, outside src/render.go) — "a two-valued external setting
(development/production) read at each HTML render to decide whether to
recompile". -/
inductive EnvMode where
  | dev
  | prod
deriving DecidableEq, Repr

/-- Outcome of `renderBytes`: a rendered buffer, a returned error, or a
runtime panic of the goroutine. -/
inductive RResult where
  | ok (s : String)
  | err (e : String)
  | panicked (m : String)
deriving DecidableEq, Repr

/-- Repackage a template execution result as a `renderBytes` outcome. -/
def rrOfExcept : Except String String → RResult
  | Except.ok s => RResult.ok s
  | Except.error e => RResult.err e

/-! ## TplRender methods -/

namespace TplRender

/-- `TplRender.JSON`: marshal (indented iff `IndentJSON`), `http.Error` on
failure; otherwise content-type, status, optional prefix, body.  The marshaler
is stdlib and passed in by its results: `marshal` is what `json.Marshal`
returns for the value, `marshalIndent` what `json.MarshalIndent` returns. -/
def JSON (opt : RenderOptions) (cs : String)
    (marshal marshalIndent : Except String String) (stat : Nat)
    (sink : Sink) : Sink :=
  match (if opt.IndentJSON then marshalIndent else marshal) with
  | Except.error e => httpError sink e 500
  | Except.ok result =>
    let s := headerSet sink ContentType (ContentJSON ++ cs)
    let s := writeStatus s stat
    let s := if opt.PrefixJSON.length > 0 then writeBytes s opt.PrefixJSON
      else s
    writeBytes s result

/-- `TplRender.XML`: identical structure with the XML media type and the
independent indent flag and prefix. -/
def XML (opt : RenderOptions) (cs : String)
    (marshal marshalIndent : Except String String) (stat : Nat)
    (sink : Sink) : Sink :=
  match (if opt.IndentXML then marshalIndent else marshal) with
  | Except.error e => httpError sink e 500
  | Except.ok result =>
    let s := headerSet sink ContentType (ContentXML ++ cs)
    let s := writeStatus s stat
    let s := if opt.PrefixXML.length > 0 then writeBytes s opt.PrefixXML
      else s
    writeBytes s result

/-- `TplRender.data`: default the content-type only when none is set, then
status and payload. -/
def data (sink : Sink) (stat : Nat) (contentType : String) (v : String) :
    Sink :=
  let s := if headerGet sink ContentType == "" then
    headerSet sink ContentType contentType else sink
  writeBytes (writeStatus s stat) v

/-- `TplRender.RawData`. -/
def RawData (sink : Sink) (stat : Nat) (v : String) : Sink :=
  data sink stat ContentBinary v

/-- `TplRender.RenderData`. -/
def RenderData (sink : Sink) (stat : Nat) (v : String) : Sink :=
  data sink stat ContentHTML v

/-- `TplRender.addYield`: rebind the shared tree's `yield` to execute the
content template with the call's data (returned as `template.HTML`), and
`current` to return the content template's name. -/
def addYield (t : TplSet) (tplName : String) (data : String) : TplSet :=
  { t with yieldF := FYield.bound tplName data
           currentF := FCurrent.bound tplName }

/-- `TplRender.prepareHTMLOptions`: an explicit override is used as-is; the
fallback to the set-level layout happens only when no override is supplied. -/
def prepareHTMLOptions (rOpt : RenderOptions) (htmlOpt : List HTMLOptions) :
    HTMLOptions :=
  match htmlOpt with
  | o :: _ => o
  | [] => { Layout := rOpt.Layout }

/-- The body of `renderBytes` after the read lock is taken: tree lookup,
option resolution, optional layout substitution via `addYield`, execution. -/
def renderBytesLocked (rOpt : RenderOptions) (reg : Registry)
    (setName tplName : String) (data : String) (htmlOpt : List HTMLOptions)
    (fuel : Nat) : RResult × Registry :=
  match lookupA reg.trees setName with
  | none =>
    (RResult.err ("html/template: template \"" ++ tplName ++
      "\" is undefined"), reg)
  | some t =>
    let opt := prepareHTMLOptions rOpt htmlOpt
    if opt.Layout.length > 0 then
      let t2 := addYield t tplName data
      let reg2 := { reg with trees := setA reg.trees setName t2 }
      (rrOfExcept (execTpl fuel t2 opt.Layout data), reg2)
    else
      (rrOfExcept (execTpl fuel t tplName data), reg)

/-- `TplRender.renderBytes`.  In development mode the set is recompiled first;
`tplSetOpts[setName]` is a nil pointer for an unregistered set, and
`compile(nil)` dereferences it — a runtime panic. -/
def renderBytes (env : EnvMode) (rOpt : RenderOptions) (fs : List FsEntry)
    (sep : Char) (reg : Registry) (setName tplName : String) (data : String)
    (htmlOpt : List HTMLOptions) (fuel : Nat) : RResult × Registry :=
  match env, lookupA reg.opts setName with
  | EnvMode.dev, none =>
    (RResult.panicked
      "runtime error: invalid memory address or nil pointer dereference", reg)
  | EnvMode.dev, some o =>
    renderBytesLocked rOpt (compile o fs sep reg) setName tplName data
      htmlOpt fuel
  | EnvMode.prod, _ =>
    renderBytesLocked rOpt reg setName tplName data htmlOpt fuel

/-- `TplRender.renderHTML`: `http.Error` with status 500 on a render error;
otherwise HTML content-type + charset, status line, buffer copy.  A panic
escapes as `Except.error`. -/
def renderHTML (env : EnvMode) (rOpt : RenderOptions) (cs : String)
    (fs : List FsEntry) (sep : Char) (reg : Registry) (stat : Nat)
    (setName tplName : String) (data : String) (htmlOpt : List HTMLOptions)
    (fuel : Nat) (sink : Sink) : Except String (Sink × Registry) :=
  match renderBytes env rOpt fs sep reg setName tplName data htmlOpt fuel with
  | (RResult.panicked m, _) => Except.error m
  | (RResult.err e, reg2) => Except.ok (httpError sink e 500, reg2)
  | (RResult.ok out, reg2) =>
    Except.ok
      (writeBytes
        (writeStatus (headerSet sink ContentType (rOpt.HTMLContentType ++ cs))
          stat)
        out, reg2)

/-- `TplRender.HTML`: render from the default set. -/
def HTML (env : EnvMode) (rOpt : RenderOptions) (cs : String)
    (fs : List FsEntry) (sep : Char) (reg : Registry) (stat : Nat)
    (name : String) (data : String) (htmlOpt : List HTMLOptions) (fuel : Nat)
    (sink : Sink) : Except String (Sink × Registry) :=
  renderHTML env rOpt cs fs sep reg stat _DEFAULT_TPL_SET_NAME name data
    htmlOpt fuel sink

/-- `TplRender.HTMLSet`: render from a named set. -/
def HTMLSet (env : EnvMode) (rOpt : RenderOptions) (cs : String)
    (fs : List FsEntry) (sep : Char) (reg : Registry) (stat : Nat)
    (setName tplName : String) (data : String) (htmlOpt : List HTMLOptions)
    (fuel : Nat) (sink : Sink) : Except String (Sink × Registry) :=
  renderHTML env rOpt cs fs sep reg stat setName tplName data htmlOpt fuel
    sink

end TplRender

/-! ## Theorems -/

/-- C7: `prepareOptions` invoked with no configuration record, or with the
relevant fields empty, never fails (it is total) and yields name "DEFAULT"
(the default-set sentinel), directory "templates", extensions
[".tmpl", ".html"], HTML content-type "text/html"; and the charset suffix of
an unset charset is "; charset=UTF-8". -/
theorem prepare_options_defaults (reg : List (String × RenderOptions))
    (o : RenderOptions) (h1 : o.Name = "") (h2 : o.Directory = "")
    (h3 : o.Extensions = []) (h4 : o.HTMLContentType = "") :
    ((prepareOptions [] reg).fst.Name = _DEFAULT_TPL_SET_NAME ∧
     (prepareOptions [] reg).fst.Name = "DEFAULT" ∧
     (prepareOptions [] reg).fst.Directory = "templates" ∧
     (prepareOptions [] reg).fst.Extensions = [".tmpl", ".html"] ∧
     (prepareOptions [] reg).fst.HTMLContentType = "text/html") ∧
    ((prepareOptions [o] reg).fst.Name = "DEFAULT" ∧
     (prepareOptions [o] reg).fst.Directory = "templates" ∧
     (prepareOptions [o] reg).fst.Extensions = [".tmpl", ".html"] ∧
     (prepareOptions [o] reg).fst.HTMLContentType = "text/html") ∧
    prepareCharset "" = "; charset=UTF-8" := by
  refine ⟨⟨rfl, rfl, rfl, rfl, rfl⟩, ⟨?_, ?_, ?_, ?_⟩, rfl⟩ <;>
    simp [prepareOptions, h1, h2, h3, h4, _DEFAULT_TPL_SET_NAME, ContentHTML]

/-- Witness for C7 at the empty option list and the zero-valued record. -/
theorem prepare_options_defaults_example :
    ((prepareOptions [] []).fst.Name = _DEFAULT_TPL_SET_NAME ∧
     (prepareOptions [] []).fst.Name = "DEFAULT" ∧
     (prepareOptions [] []).fst.Directory = "templates" ∧
     (prepareOptions [] []).fst.Extensions = [".tmpl", ".html"] ∧
     (prepareOptions [] []).fst.HTMLContentType = "text/html") ∧
    ((prepareOptions [{}] []).fst.Name = "DEFAULT" ∧
     (prepareOptions [{}] []).fst.Directory = "templates" ∧
     (prepareOptions [{}] []).fst.Extensions = [".tmpl", ".html"] ∧
     (prepareOptions [{}] []).fst.HTMLContentType = "text/html") ∧
    prepareCharset "" = "; charset=UTF-8" :=
  prepare_options_defaults [] {} rfl rfl rfl rfl

/-- C5: on a successful marshal, `JSON` marshals with indentation exactly when
`IndentJSON` is set, sets the content-type to the JSON media type plus the
charset suffix, writes the status line, then — exactly when a non-empty JSON
prefix is configured — writes the prefix immediately before the body. -/
theorem json_success_order (opt : RenderOptions) (cs : String)
    (m mi : Except String String) (stat : Nat) (sink : Sink) (res : String)
    (h : (if opt.IndentJSON then mi else m) = Except.ok res) :
    TplRender.JSON opt cs m mi stat sink =
      sink ++ [SinkEv.setHeader ContentType (ContentJSON ++ cs),
        SinkEv.writeHeader stat] ++
        (if opt.PrefixJSON.length > 0 then [SinkEv.write opt.PrefixJSON]
          else []) ++
        [SinkEv.write res] := by
  unfold TplRender.JSON
  rw [h]
  by_cases hp : opt.PrefixJSON.length > 0 <;>
    simp [hp, headerSet, writeStatus, writeBytes]

/-- Witness for C5: the spec's prefix example, at status 200 on an empty
sink. -/
theorem json_prefix_example :
    TplRender.JSON { PrefixJSON := ")]\x7d\x27,\n" } "; charset=UTF-8"
        (Except.ok "[1,2]") (Except.error "unused") 200 [] =
      [SinkEv.setHeader ContentType (ContentJSON ++ "; charset=UTF-8"),
        SinkEv.writeHeader 200, SinkEv.write ")]\x7d\x27,\n",
        SinkEv.write "[1,2]"] := by
  rw [json_success_order { PrefixJSON := ")]\x7d\x27,\n" } "; charset=UTF-8"
    (Except.ok "[1,2]") (Except.error "unused") 200 [] "[1,2]" rfl]
  rfl

/-- C6 counterexample: on a marshal failure `http.Error` runs, which does set
a content-type on the sink — text/plain; charset=utf-8 — so "no content-type
is set on the sink in that path" is false; and the body written is the error
text with a trailing newline, not the error text verbatim. -/
theorem marshal_failure_sets_text_plain :
    headerGet
        (TplRender.JSON {} "" (Except.error "json: unsupported type: chan int")
          (Except.error "json: unsupported type: chan int") 200 [])
        ContentType = "text/plain; charset=utf-8" ∧
    ¬ headerGet
        (TplRender.JSON {} "" (Except.error "json: unsupported type: chan int")
          (Except.error "json: unsupported type: chan int") 200 [])
        ContentType = "" ∧
    bodyOf
        (TplRender.JSON {} "" (Except.error "json: unsupported type: chan int")
          (Except.error "json: unsupported type: chan int") 200 []) =
      "json: unsupported type: chan int\n" ∧
    ¬ ("json: unsupported type: chan int\n" =
      "json: unsupported type: chan int") := by
  refine ⟨rfl, ?_, rfl, ?_⟩ <;> decide

/-- C6 amended: on a marshal failure, `JSON` and `XML` hand the sink to the
stdlib error helper with status 500: the body becomes the marshal error's text
plus a newline, the renderer does not set the JSON/XML media type in that
path, and the error helper sets the content-type to text/plain;
charset=utf-8. -/
theorem marshal_failure_http_error (opt : RenderOptions) (cs : String)
    (m mi mx mxi : Except String String) (statJ statX : Nat) (sink : Sink)
    (e1 e2 : String)
    (hj : (if opt.IndentJSON then mi else m) = Except.error e1)
    (hx : (if opt.IndentXML then mxi else mx) = Except.error e2) :
    TplRender.JSON opt cs m mi statJ sink = httpError sink e1 500 ∧
    TplRender.XML opt cs mx mxi statX sink = httpError sink e2 500 := by
  constructor
  · unfold TplRender.JSON
    rw [hj]
  · unfold TplRender.XML
    rw [hx]

/-- Witness for C6 amended, at concrete failing marshals on an empty sink. -/
theorem marshal_failure_example :
    TplRender.JSON {} "" (Except.error "boom") (Except.error "boom") 200 [] =
      httpError [] "boom" 500 ∧
    TplRender.XML {} "" (Except.error "bam") (Except.error "bam") 201 [] =
      httpError [] "bam" 500 :=
  marshal_failure_http_error {} "" (Except.error "boom") (Except.error "boom")
    (Except.error "bam") (Except.error "bam") 200 201 [] "boom" "bam" rfl rfl

/-- C2: with an unknown set name, production mode reports the "undefined"
error naming the requested template and writes it as a 500 via `http.Error`;
development mode, however, hits `compile(tplSetOpts[setName])` with a nil
options pointer before the tree check and panics on the nil dereference —
contradicting the claim's "does not panic ... in both development and
production mode". -/
theorem unknown_set_dev_panics_prod_errors :
    TplRender.HTMLSet EnvMode.dev {} "" [] '/' (Registry.mk [] []) 200
        "missing-set" "x" "" [] 10 [] =
      Except.error
        "runtime error: invalid memory address or nil pointer dereference" ∧
    TplRender.HTMLSet EnvMode.prod {} "" [] '/' (Registry.mk [] []) 200
        "missing-set" "x" "" [] 10 [] =
      Except.ok
        (httpError [] "html/template: template \"x\" is undefined" 500,
          Registry.mk [] []) := by
  exact ⟨rfl, rfl⟩

lemma headerGet_writeStatus (s : Sink) (c : Nat) (k : String) :
    headerGet (writeStatus s c) k = headerGet s k := by
  simp [headerGet, writeStatus, List.foldl_append]

lemma headerGet_writeBytes (s : Sink) (b : String) (k : String) :
    headerGet (writeBytes s b) k = headerGet s k := by
  simp [headerGet, writeBytes, List.foldl_append]

lemma headerGet_headerSet_same (s : Sink) (k v : String) :
    headerGet (headerSet s k v) k = v := by
  simp [headerGet, headerSet, List.foldl_append]

lemma bodyOf_writeBytes (s : Sink) (b : String) :
    bodyOf (writeBytes s b) = bodyOf s ++ b := by
  simp [bodyOf, writeBytes, List.foldl_append]

lemma bodyOf_writeStatus (s : Sink) (c : Nat) :
    bodyOf (writeStatus s c) = bodyOf s := by
  simp [bodyOf, writeStatus, List.foldl_append]

lemma bodyOf_headerSet (s : Sink) (k v : String) :
    bodyOf (headerSet s k v) = bodyOf s := by
  simp [bodyOf, headerSet, List.foldl_append]

/-- C8: `RawData` and `RenderData` write the payload verbatim and set their
default content-type (octet-stream / HTML) only when the sink has no
content-type yet; a pre-set content-type is left unchanged. -/
theorem raw_render_data_content_type_policy (sink : Sink) (stat : Nat)
    (v : String) :
    bodyOf (TplRender.RawData sink stat v) = bodyOf sink ++ v ∧
    headerGet (TplRender.RawData sink stat v) ContentType =
      (if headerGet sink ContentType == "" then ContentBinary
        else headerGet sink ContentType) ∧
    bodyOf (TplRender.RenderData sink stat v) = bodyOf sink ++ v ∧
    headerGet (TplRender.RenderData sink stat v) ContentType =
      (if headerGet sink ContentType == "" then ContentHTML
        else headerGet sink ContentType) := by
  by_cases h : headerGet sink ContentType == "" <;>
    refine ⟨?_, ?_, ?_, ?_⟩ <;>
      simp only [TplRender.RawData, TplRender.RenderData, TplRender.data, h,
        if_true, if_false, Bool.false_eq_true, ite_true, ite_false,
        bodyOf_writeBytes, bodyOf_writeStatus, bodyOf_headerSet,
        headerGet_writeBytes, headerGet_writeStatus, headerGet_headerSet_same]

/-- C1: when the resolved layout name is non-empty, `renderBytes` rebinds the
shared tree's `yield` helper to the originally requested content template with
the call's data, rebinds `current` to the content template's name, and then
executes the layout template instead of the requested one, on the mutated
tree. -/
theorem layout_rebinds_and_executes_layout (rOpt : RenderOptions)
    (reg : Registry) (setName tplName data : String)
    (htmlOpt : List HTMLOptions) (fuel : Nat) (t : TplSet)
    (ht : lookupA reg.trees setName = some t)
    (hl : (TplRender.prepareHTMLOptions rOpt htmlOpt).Layout.length > 0) :
    (TplRender.addYield t tplName data).yieldF = FYield.bound tplName data ∧
    (TplRender.addYield t tplName data).currentF = FCurrent.bound tplName ∧
    TplRender.renderBytes EnvMode.prod rOpt [] '/' reg setName tplName data
        htmlOpt fuel =
      (rrOfExcept (execTpl fuel (TplRender.addYield t tplName data)
          (TplRender.prepareHTMLOptions rOpt htmlOpt).Layout data),
        Registry.mk (setA reg.trees setName (TplRender.addYield t tplName data))
          reg.opts) := by
  refine ⟨rfl, rfl, ?_⟩
  simp [TplRender.renderBytes, TplRender.renderBytesLocked, ht, hl]

def c1tree : TplSet :=
  TplSet.mk
    [("layout", [Node.text "<html>", Node.yieldCall, Node.text "</html>"]),
     ("content", [Node.text "body"])]
    FYield.unbound FCurrent.unbound

def c1reg : Registry := Registry.mk [("DEFAULT", c1tree)] []

/-- Witness for C1: the spec's example — layout wrapping the content template
"content" (producing "body") renders exactly "<html>body</html>". -/
theorem layout_composition_example :
    (TplRender.renderBytes EnvMode.prod {} [] '/' c1reg "DEFAULT" "content" ""
      [HTMLOptions.mk "layout"] 10).fst = RResult.ok "<html>body</html>" := by
  have h := layout_rebinds_and_executes_layout {} c1reg "DEFAULT" "content" ""
    [HTMLOptions.mk "layout"] 10 c1tree rfl (by decide)
  rw [h.2.2]
  rfl

/-- C10: a supplied `HTMLOptions` override is used as-is even when its layout
is empty — it disables the layout for the call even though the renderer's
configured layout is non-empty — and the fallback to the set-level layout
happens only when no override record is supplied at all. -/
theorem empty_override_disables_layout (rOpt : RenderOptions)
    (reg : Registry) (setName tplName data : String) (fuel : Nat) (t : TplSet)
    (ht : lookupA reg.trees setName = some t)
    (_hl : rOpt.Layout.length > 0) :
    TplRender.prepareHTMLOptions rOpt [HTMLOptions.mk ""] =
      HTMLOptions.mk "" ∧
    TplRender.prepareHTMLOptions rOpt [] = HTMLOptions.mk rOpt.Layout ∧
    TplRender.renderBytes EnvMode.prod rOpt [] '/' reg setName tplName data
        [HTMLOptions.mk ""] fuel =
      (rrOfExcept (execTpl fuel t tplName data), reg) := by
  refine ⟨rfl, rfl, ?_⟩
  simp [TplRender.renderBytes, TplRender.renderBytesLocked,
    TplRender.prepareHTMLOptions, ht]

def c10tree : TplSet :=
  TplSet.mk [("content", [Node.text "body"])] FYield.unbound FCurrent.unbound

def c10reg : Registry := Registry.mk [("DEFAULT", c10tree)] []

/-- Witness for C10: with configured layout "layout" but an explicit empty
override, the content template renders directly. -/
theorem empty_override_example :
    TplRender.renderBytes EnvMode.prod { Layout := "layout" } [] '/' c10reg
        "DEFAULT" "content" "" [HTMLOptions.mk ""] 10 =
      (rrOfExcept (execTpl 10 c10tree "content" ""), c10reg) ∧
    rrOfExcept (execTpl 10 c10tree "content" "") = RResult.ok "body" :=
  ⟨(empty_override_disables_layout { Layout := "layout" } c10reg "DEFAULT"
      "content" "" 10 c10tree rfl (by decide)).2.2, rfl⟩

/-- C9 amended: a render call whose resolved layout is empty executes the
requested template directly against the shared tree's current helper
bindings; while those bindings are still the defaults from `helperFuncs`,
invoking `yield` fails with "yield called with no layout defined" and
`current` returns the empty string.  (An earlier layout-using render leaves
the tree's helpers rebound — see the counterexample.) -/
theorem no_layout_direct_execution_inert_helpers (rOpt : RenderOptions)
    (reg : Registry) (setName tplY tplC data : String) (fuel : Nat)
    (t : TplSet) (ht : lookupA reg.trees setName = some t)
    (hy : t.yieldF = FYield.unbound) (hc : t.currentF = FCurrent.unbound)
    (hl : rOpt.Layout = "")
    (hby : lookupA t.tpls tplY = some [Node.yieldCall])
    (hbc : lookupA t.tpls tplC = some [Node.currentCall]) :
    TplRender.renderBytes EnvMode.prod rOpt [] '/' reg setName tplY data []
        (fuel + 1) =
      (RResult.err "yield called with no layout defined", reg) ∧
    TplRender.renderBytes EnvMode.prod rOpt [] '/' reg setName tplC data []
        (fuel + 1) =
      (RResult.ok "", reg) := by
  constructor <;>
    simp [TplRender.renderBytes, TplRender.renderBytesLocked,
      TplRender.prepareHTMLOptions, ht, hl, hby, hbc, hy, hc,
      execTpl, execBody, execNode, rrOfExcept]

def c9itree : TplSet :=
  TplSet.mk [("y", [Node.yieldCall]), ("c", [Node.currentCall])]
    FYield.unbound FCurrent.unbound

def c9ireg : Registry := Registry.mk [("DEFAULT", c9itree)] []

/-- Witness for C9 amended, on a freshly compiled-looking tree with default
helper bindings. -/
theorem inert_helpers_example :
    TplRender.renderBytes EnvMode.prod {} [] '/' c9ireg "DEFAULT" "y" "" []
        (9 + 1) =
      (RResult.err "yield called with no layout defined", c9ireg) ∧
    TplRender.renderBytes EnvMode.prod {} [] '/' c9ireg "DEFAULT" "c" "" []
        (9 + 1) =
      (RResult.ok "", c9ireg) :=
  no_layout_direct_execution_inert_helpers {} c9ireg "DEFAULT" "y" "c" "" 9
    c9itree rfl rfl rfl rfl rfl rfl

def c9tree : TplSet :=
  TplSet.mk
    [("layout", [Node.text "<html>", Node.yieldCall, Node.text "</html>"]),
     ("content", [Node.text "body"]),
     ("plain", [Node.yieldCall])]
    FYield.unbound FCurrent.unbound

def c9reg : Registry := Registry.mk [("DEFAULT", c9tree)] []

/-- C9 counterexample: in production mode, a no-layout render of "plain"
(whose body invokes `yield`) that follows an earlier layout-using render of
"content" against the same set does NOT fail with "yield called with no
layout defined": it observes the stale `yield` binding left on the shared
tree and renders "body". -/
theorem stale_yield_after_layout_render :
    (TplRender.renderBytes EnvMode.prod {} [] '/'
        (TplRender.renderBytes EnvMode.prod {} [] '/' c9reg "DEFAULT"
          "content" "" [HTMLOptions.mk "layout"] 10).snd
        "DEFAULT" "plain" "" [] 10).fst = RResult.ok "body" ∧
    RResult.ok "body" ≠ RResult.err "yield called with no layout defined" :=
  ⟨rfl, fun h => RResult.noConfusion h⟩

lemma lookupA_isSome {α : Type} (l : List (String × α)) (k : String) :
    (lookupA l k).isSome = true ↔ ∃ p, p ∈ l ∧ p.fst = k := by
  simp [lookupA, List.find?_isSome]

lemma mem_foldl_compileStep (exts : List String) (sep : Char)
    (x : String × List Node) (fs : List FsEntry) :
    ∀ acc : List (String × List Node),
      x ∈ fs.foldl (compileStep exts sep) acc ↔
        x ∈ acc ∨ ∃ e, e ∈ fs ∧ extMatched exts sep e = true ∧
          x = (nodeName sep e, e.content) := by
  induction fs with
  | nil => intro acc; simp
  | cons e fs ih =>
    intro acc
    rw [List.foldl_cons, ih]
    by_cases h : extMatched exts sep e
    · simp only [compileStep, h, if_true, List.mem_cons]
      constructor
      · rintro ((rfl | hx) | ⟨e2, he2, hm2, hx2⟩)
        · exact Or.inr ⟨e, Or.inl rfl, h, rfl⟩
        · exact Or.inl hx
        · exact Or.inr ⟨e2, Or.inr he2, hm2, hx2⟩
      · rintro (hx | ⟨e2, (rfl | he2), hm2, hx2⟩)
        · exact Or.inl (Or.inr hx)
        · exact Or.inl (Or.inl hx2)
        · exact Or.inr ⟨e2, he2, hm2, hx2⟩
    · simp only [compileStep, h, if_false, Bool.false_eq_true, List.mem_cons]
      constructor
      · rintro (hx | ⟨e2, he2, hm2, hx2⟩)
        · exact Or.inl hx
        · exact Or.inr ⟨e2, Or.inr he2, hm2, hx2⟩
      · rintro (hx | ⟨e2, (rfl | he2), hm2, hx2⟩)
        · exact Or.inl hx
        · exact absurd hm2 h
        · exact Or.inr ⟨e2, he2, hm2, hx2⟩

/-- The node names a compilation creates: the placeholder root plus one node
per extension-matched file. -/
lemma mem_compileTpl_tpls (opt : RenderOptions) (fs : List FsEntry)
    (sep : Char) (x : String × List Node) :
    x ∈ (compileTpl opt fs sep).tpls ↔
      x = (opt.Directory, [Node.text "Macaron"]) ∨
      ∃ e, e ∈ fs ∧ extMatched opt.Extensions sep e = true ∧
        x = (nodeName sep e, e.content) := by
  unfold compileTpl
  rw [mem_foldl_compileStep]
  simp

/-- C3 amended: a template node exists under some name iff that name is the
placeholder root or a file's derived node name where the suffix starting at
the first dot of the file's path RELATIVE TO THE ROOT (not of its base name
alone) exactly, case-sensitively equals one of the configured extensions. -/
theorem node_created_iff_path_suffix_matches (opt : RenderOptions)
    (fs : List FsEntry) (sep : Char) (name : String) :
    (lookupA (compileTpl opt fs sep).tpls name).isSome = true ↔
      name = opt.Directory ∨
      ∃ e, e ∈ fs ∧ extMatched opt.Extensions sep e = true ∧
        nodeName sep e = name := by
  rw [lookupA_isSome]
  constructor
  · rintro ⟨p, hp, hk⟩
    rcases (mem_compileTpl_tpls opt fs sep p).mp hp with h | ⟨e, he, hm, hx⟩
    · left; rw [← hk, h]
    · right; exact ⟨e, he, hm, by rw [← hk, hx]⟩
  · rintro (rfl | ⟨e, he, hm, hn⟩)
    · exact ⟨(opt.Directory, [Node.text "Macaron"]),
        (mem_compileTpl_tpls opt fs sep _).mpr (Or.inl rfl), rfl⟩
    · exact ⟨(nodeName sep e, e.content),
        (mem_compileTpl_tpls opt fs sep _).mpr (Or.inr ⟨e, he, hm, rfl⟩), hn⟩

/-- Follows the spec words of claim C3, for comparison with the code: the
suffix starting at the first dot of the file's NAME (its last path
component). -/
def specFileNameExt (e : FsEntry) : String := getExt (e.rel.getLastD "")

def c3opt : RenderOptions :=
  { Name := "DEFAULT", Directory := "templates",
    Extensions := [".tmpl", ".html"] }

def c3fs : List FsEntry := [FsEntry.mk ["v1.0", "notes.html"] [Node.text "N"]]

/-- C3 counterexample: for the file v1.0/notes.html the suffix at the first
dot of the file's NAME is ".html", a configured extension — yet compilation
creates no node for it (only the placeholder root exists), because `getExt`
takes the suffix at the first dot of the whole relative path,
".0/notes.html". -/
theorem ext_filter_filename_dot_counterexample :
    specFileNameExt (FsEntry.mk ["v1.0", "notes.html"] [Node.text "N"]) =
      ".html" ∧
    [".tmpl", ".html"].contains ".html" = true ∧
    getExt (relPath '/' (FsEntry.mk ["v1.0", "notes.html"] [Node.text "N"])) =
      ".0/notes.html" ∧
    (compileTpl c3opt c3fs '/').tpls =
      [("templates", [Node.text "Macaron"])] :=
  ⟨rfl, rfl, rfl, rfl⟩

lemma nodeName_content_free (sep : Char) (rel : List String)
    (c1 c2 : List Node) :
    nodeName sep (FsEntry.mk rel c1) = nodeName sep (FsEntry.mk rel c2) := rfl

lemma extMatched_content_free (exts : List String) (sep : Char)
    (rel : List String) (c1 c2 : List Node) :
    extMatched exts sep (FsEntry.mk rel c1) =
      extMatched exts sep (FsEntry.mk rel c2) := rfl

/-- C4: a file at sub/dir/page.tmpl — on a slash host or a backslash host —
derives the node name "sub/dir/page" (relative path, matched extension
stripped, separators normalized to forward slashes) and registers under it. -/
theorem node_name_relative_slash_normalized (opt : RenderOptions)
    (fs : List FsEntry) (sep : Char) (body : List Node)
    (hsep : sep = '/' ∨ sep = '\\')
    (hext : opt.Extensions = [".tmpl", ".html"])
    (hmem : FsEntry.mk ["sub", "dir", "page.tmpl"] body ∈ fs) :
    nodeName sep (FsEntry.mk ["sub", "dir", "page.tmpl"] body) =
      "sub/dir/page" ∧
    (lookupA (compileTpl opt fs sep).tpls "sub/dir/page").isSome = true := by
  have hname : nodeName sep (FsEntry.mk ["sub", "dir", "page.tmpl"] body) =
      "sub/dir/page" := by
    rw [nodeName_content_free sep ["sub", "dir", "page.tmpl"] body []]
    rcases hsep with rfl | rfl <;> decide
  refine ⟨hname, ?_⟩
  rw [lookupA_isSome]
  refine ⟨("sub/dir/page", body),
    (mem_compileTpl_tpls opt fs sep _).mpr (Or.inr ⟨_, hmem, ?_, ?_⟩), rfl⟩
  · rw [hext,
      extMatched_content_free [".tmpl", ".html"] sep ["sub", "dir", "page.tmpl"]
        body []]
    rcases hsep with rfl | rfl <;> decide
  · rw [hname]

/-- Witness for C4 on a backslash (Windows-style) host separator. -/
theorem node_name_backslash_host_example :
    nodeName '\\' (FsEntry.mk ["sub", "dir", "page.tmpl"] [Node.text "P"]) =
      "sub/dir/page" ∧
    (lookupA (compileTpl { Extensions := [".tmpl", ".html"] }
          [FsEntry.mk ["sub", "dir", "page.tmpl"] [Node.text "P"]] '\\').tpls
        "sub/dir/page").isSome = true :=
  node_name_relative_slash_normalized { Extensions := [".tmpl", ".html"] }
    [FsEntry.mk ["sub", "dir", "page.tmpl"] [Node.text "P"]] '\\'
    [Node.text "P"] (Or.inr rfl) rfl (List.mem_cons_self _ _)
